import Mathlib

/-!
Verification of the certificate-analysis module (`amplify/agent/util/ssl.py`).

The module extracts structured metadata from an X.509 certificate file by
invoking the external `openssl` tool six times and parsing its textual output
with fixed regular-expression catalogs.  We embed the module shallowly:

* Python values that occur in the result dictionary are `PyVal`;
  Python dictionaries are insertion-ordered association lists.
* Python exceptions are `PyExc`; fallible code returns `Except PyExc _`.
* The external collaborators (filesystem readability check, file
  modification time, and the command runner `subp.call`) are a `World`
  record; the command runner has the contract
  `run : String → List String × List String` (stdout lines, stderr lines)
  and never raises.
* Each regular expression of the module is embedded as a direct
  string-scanning function with Python `re` semantics:
  `re.match` with a leading greedy `.*` succeeds at the rightmost viable
  occurrence of the literal core; `.` never matches a newline;
  `re.findall` scans left to right without overlap.
-/

/-- Python exception classes raised (or caught) anywhere in the module.
All of them are subclasses of `Exception`, hence caught by the
orchestrator's broad `except Exception` handler;
`IOError` alone is caught by the readability pre-check handler. -/
inductive PyExc where
  | ioError
  | osError
  | valueError
  | keyError
  | typeError
  | indexError
  | other
deriving DecidableEq, Repr

/-- Python values stored in the result dictionary of the module: strings
(regex captures, OCSP URI), integers (timestamps, key length), `None`,
lists of strings (the SAN `names` list), string-valued sub-dictionaries
(subject / issuer / purpose) and integer-valued sub-dictionaries (dates). -/
inductive PyVal where
  | vNone
  | vStr (s : String)
  | vInt (n : Int)
  | vStrList (l : List String)
  | vStrDict (d : List (String × String))
  | vIntDict (d : List (String × Int))
deriving DecidableEq, Repr

/-- Insertion-ordered dictionary assignment `d[k] = v`: an existing binding
is overwritten in place, a new key is appended at the end
(CPython dict semantics). -/
def assocSet {α : Type} : List (String × α) → String → α → List (String × α)
  | [], k, v => [(k, v)]
  | (k0, v0) :: rest, k, v =>
    if k = k0 then (k, v) :: rest else (k0, v0) :: assocSet rest k v

/-- Dictionary lookup, `d.get(k)`. -/
def assocGet {α : Type} : List (String × α) → String → Option α
  | [], _ => none
  | (k0, v0) :: rest, k => if k = k0 then some v0 else assocGet rest k

/-- The result dictionary assembled by the orchestrator. -/
abbrev PyDict := List (String × PyVal)

/-- `d.update(d2)` : assign every binding of `d2` into `d`, in order. -/
def dictUpdate (d d2 : PyDict) : PyDict :=
  d2.foldl (fun acc p => assocSet acc p.1 p.2) d

/-- Python truthiness for the values of `PyVal`. -/
def pyTruthy : PyVal → Bool
  | .vNone => false
  | .vStr s => !(s = "")
  | .vInt n => !(n = 0)
  | .vStrList l => !l.isEmpty
  | .vStrDict d => !d.isEmpty
  | .vIntDict d => !d.isEmpty

/-- `xs[i]` on a Python list: `IndexError` when out of range. -/
def listIndex {α : Type} (l : List α) (n : Nat) : Except PyExc α :=
  match l.get? n with
  | some x => .ok x
  | none => .error .indexError

/-- `v[k]` for a string key `k`: lookup for dictionaries (`KeyError` when
missing), `TypeError` for every non-dictionary value (in particular
`None[k]` is the `TypeError` raised when the subject is absent). -/
def pyValSubscript : PyVal → String → Except PyExc PyVal
  | .vStrDict d, k =>
    match assocGet d k with
    | some s => .ok (.vStr s)
    | none => .error .keyError
  | .vIntDict d, k =>
    match assocGet d k with
    | some n => .ok (.vInt n)
    | none => .error .keyError
  | _, _ => .error .typeError

/-- `d[k]` on the top-level result dictionary: `KeyError` when absent. -/
def dictSubscript (d : PyDict) (k : String) : Except PyExc PyVal :=
  match assocGet d k with
  | some v => .ok v
  | none => .error .keyError

/-! ### Character classes of the pattern catalog
Python 2 `re` on byte strings without flags: `\w = [a-zA-Z0-9_]`,
`\s` = space, tab, newline, carriage return, form feed, vertical tab. -/

/-- `\w` (ASCII). -/
def isWordChar (c : Char) : Bool :=
  c.isAlpha || c.isDigit || c = '_'

/-- `\s` (ASCII). -/
def isSpaceChar (c : Char) : Bool :=
  c = ' ' || c = '\t' || c = '\n' || c = '\r' || c = '\x0b' || c = '\x0c'

/-- Character class of the `country` capture: `[\w]`. -/
def clsCountry (c : Char) : Bool := isWordChar c

/-- Character class of the `state` and `location` captures: `[\w\s]`. -/
def clsStateLoc (c : Char) : Bool := isWordChar c || isSpaceChar c

/-- Character class of the `organization` capture: comma, apostrophe
(character code 39), hyphen and period besides `[\w\s]`. -/
def clsOrg (c : Char) : Bool :=
  clsStateLoc c || c = ',' || c.toNat = 39 || c = '-' || c = '.'

/-- Character class of the `unit` capture: `[\w\s,\-\.]`. -/
def clsUnit (c : Char) : Bool :=
  clsStateLoc c || c = ',' || c = '-' || c = '.'

/-- Character class of the `common_name` capture: apostrophe, hyphen,
period besides `[\w\s]`. -/
def clsCommonName (c : Char) : Bool :=
  clsStateLoc c || c.toNat = 39 || c = '-' || c = '.'

/-- Character class of the SAN detector `DNS:[\w\s\-\.]`. -/
def clsDns (c : Char) : Bool :=
  clsStateLoc c || c = '-' || c = '.'

/-! ### Embedded regular-expression matchers -/

/-- `re.match` of a pattern `.*LIT(?P<g>[cls]+).*` (the six
distinguished-name patterns).  The leading greedy `.*` cannot cross a
newline and backtracks from the right, so the match succeeds at the
rightmost occurrence of `LIT` that is preceded by no newline and followed
by at least one class character; the greedy `[cls]+` captures the maximal
class run there.  The trailing `.*` constrains nothing. -/
def capAfterLast (lit : List Char) (cls : Char → Bool) : List Char → Option (List Char)
  | [] => none
  | c :: rest =>
    if c = '\n' then none
    else
      match capAfterLast lit cls rest with
      | some r => some r
      | none =>
        if lit.isPrefixOf (c :: rest) then
          let run := ((c :: rest).drop lit.length).takeWhile cls
          if run.isEmpty then none else some run
        else none

/-- `re.match` of a pattern `.*LIT(?P<g>.*)` (the public-key-algorithm and
signature-algorithm patterns).  The match succeeds at the rightmost
occurrence of `LIT` preceded by no newline; the greedy `(.*)` captures
everything up to the next newline (possibly the empty string). -/
def capToEolAfterLast (lit : List Char) : List Char → Option (List Char)
  | [] => none
  | c :: rest =>
    if c = '\n' then none
    else
      match capToEolAfterLast lit rest with
      | some r => some r
      | none =>
        if lit.isPrefixOf (c :: rest) then
          some (((c :: rest).drop lit.length).takeWhile (fun ch => !(ch = '\n')))
        else none

/-- The tail of the public-key-length pattern `\((?P<length>\d+).*\)`,
applied right after an occurrence of the literal `Public-Key: (`:
the greedy `\d+` captures the maximal digit run (at least one digit), and
`.*\)` requires a closing parenthesis after the run with no newline in
between (shrinking `\d+` only re-exposes digits, never a parenthesis, so
backtracking inside `\d+` cannot rescue a failed match). -/
def pkCapHere (s : List Char) : Option (List Char) :=
  let run := s.takeWhile Char.isDigit
  if run.isEmpty then none
  else if ((s.drop run.length).takeWhile (fun ch => !(ch = '\n'))).contains ')' then
    some run
  else none

/-- `re.match` of `.*Public-Key: \((?P<length>\d+).*\)`: rightmost viable
occurrence of the literal `Public-Key: (`, then `pkCapHere`. -/
def capPkLen (lit : List Char) : List Char → Option (List Char)
  | [] => none
  | c :: rest =>
    if c = '\n' then none
    else
      match capPkLen lit rest with
      | some r => some r
      | none =>
        if lit.isPrefixOf (c :: rest) then pkCapHere ((c :: rest).drop lit.length)
        else none

/-- The literal `DNS:` of the SAN detector. -/
def dnsLit : List Char := 'D' :: 'N' :: 'S' :: ':' :: []

/-- `re.findall` of `DNS:[\w\s\-\.]+`, fueled left-to-right scan: at each
position, either the literal `DNS:` followed by a non-empty class run
matches (emit `DNS:` plus the maximal run, resume after it), or the scan
advances one character.  The fuel equals the input length; every step
consumes at least one character, so the fuel never runs out before the
input does. -/
def dnsFindallF (fuel : Nat) : List Char → List (List Char)
  | [] => []
  | c :: rest =>
    match fuel with
    | 0 => []
    | fuel' + 1 =>
      let s := c :: rest
      let run := (s.drop 4).takeWhile clsDns
      if dnsLit.isPrefixOf s && !run.isEmpty then
        (dnsLit ++ run) :: dnsFindallF fuel' ((s.drop 4).drop run.length)
      else dnsFindallF fuel' rest

/-- `re.findall(ssl_dns_regex, line)`. -/
def dnsFindall (l : List Char) : List (List Char) :=
  dnsFindallF l.length l

/-! ### Python string helpers -/

/-- Fueled scanner of `str.split(sep)` for a non-empty separator:
left-to-right non-overlapping splitting, empty parts preserved. -/
def splitSepF (sep : List Char) : Nat → List Char → List Char → List (List Char)
  | _, acc, [] => [acc.reverse]
  | 0, acc, rest => [acc.reverse ++ rest]
  | fuel + 1, acc, c :: rest =>
    if sep.isPrefixOf (c :: rest) then
      acc.reverse :: splitSepF sep fuel [] ((c :: rest).drop sep.length)
    else splitSepF sep fuel (c :: acc) rest

/-- `s.split(sep)` for a non-empty separator (the module splits on
`"="`, `" : "` and `":"`; Python raises on an empty separator, which
never occurs here). -/
def pySplit (s sep : String) : List String :=
  if sep.toList.isEmpty then [s]
  else (splitSepF sep.toList s.toList.length [] s.toList).map List.asString

/-- Digit run to a natural number. -/
def digitsVal (l : List Char) : Nat :=
  l.foldl (fun a c => 10 * a + (c.toNat - 48)) 0

/-- Parse a non-empty all-digit string. -/
def parseNatDigits (l : List Char) : Option Nat :=
  if !l.isEmpty && l.all Char.isDigit then some (digitsVal l) else none

/-- `int(v)` as applied by the orchestrator to the `length` field: the
value is either already an integer or the decimal-digit capture of the
`Public-Key` pattern; a non-numeric string raises `ValueError`, a
non-string non-integer raises `TypeError`. -/
def pyIntOf : PyVal → Except PyExc Int
  | .vInt n => .ok n
  | .vStr s =>
    match parseNatDigits s.toList with
    | some n => .ok (Int.ofNat n)
    | none => .error .valueError
  | _ => .error .typeError

/-! ### The date parser of `certificate_dates` -/

/-- Month abbreviations of `%b`. -/
def monthNum (m : String) : Option Nat :=
  assocGet [("Jan", 1), ("Feb", 2), ("Mar", 3), ("Apr", 4), ("May", 5), ("Jun", 6),
            ("Jul", 7), ("Aug", 8), ("Sep", 9), ("Oct", 10), ("Nov", 11), ("Dec", 12)] m

/-- Split on whitespace runs, dropping empty parts (`str.split()`):
`strptime` lets a space in the format absorb the padding `openssl`
puts before one-digit days. -/
def splitWSAux : List Char → List Char → List (List Char)
  | acc, [] => if acc.isEmpty then [] else [acc.reverse]
  | acc, c :: rest =>
    if isSpaceChar c then
      if acc.isEmpty then splitWSAux [] rest else acc.reverse :: splitWSAux [] rest
    else splitWSAux (c :: acc) rest

/-- Days from 1970-01-01 of a civil date (standard civil-from-days
inverse, written for truncating integer division). -/
def daysFromCivil (y m d : Int) : Int :=
  let y2 := if m ≤ 2 then y - 1 else y
  let era := (if 0 ≤ y2 then y2 else y2 - 399) / 400
  let yoe := y2 - era * 400
  let mp := if 2 < m then m - 3 else m + 9
  let doy := (153 * mp + 2) / 5 + d - 1
  let doe := yoe * 365 + yoe / 4 - yoe / 100 + doy
  era * 146097 + doe - 719468

/-- Modelled from the spec: the external date-parsing step of the dates
extractor, `int(datetime.strptime(value, "%b %d %H:%M:%S %Y %Z").strftime("%s"))`
(the Python standard library, not part of this repository): parse
`Mon DD HH:MM:SS YYYY TZ` and convert to an integer Unix timestamp;
any value not of that shape raises `ValueError`. -/
def strptimeEpoch (s : String) : Option Int :=
  match (splitWSAux [] s.toList).map List.asString with
  | [mon, day, time, year, tz] =>
    match monthNum mon, parseNatDigits day.toList, pySplit time ":",
          parseNatDigits year.toList with
    | some m, some d, [hh, mm, ss], some y =>
      match parseNatDigits hh.toList, parseNatDigits mm.toList, parseNatDigits ss.toList with
      | some h, some mi, some sec =>
        if 1 ≤ d && d ≤ 31 && h ≤ 23 && mi ≤ 59 && sec ≤ 61 && (tz = "GMT" || tz = "UTC") then
          some (86400 * daysFromCivil (Int.ofNat y) (Int.ofNat m) (Int.ofNat d)
                + 3600 * (h : Int) + 60 * (mi : Int) + (sec : Int))
        else none
      | _, _, _ => none
    | _, _, _, _ => none
  | _ => none

/-- The date-parsing step as the module uses it: a failed parse is the
`ValueError` that `strptime` raises. -/
def strptimeEpochInt (v : String) : Except PyExc Int :=
  match strptimeEpoch v with
  | some t => .ok t
  | none => .error .valueError

/-! ### The six field extractors
Each Python extractor performs one `subp.call` and parses its stdout
lines; here each takes those stdout lines as its argument (the
orchestrator below records which commands are run). -/

/-- One loop iteration of `certificate_dates`: an empty line is skipped;
otherwise `key, value = line.split("=")` (a `ValueError` unless the split
yields exactly two parts), and a recognized key stores the parsed
timestamp under `start` / `end`. -/
def datesStep (d : List (String × Int)) (line : String) : Except PyExc (List (String × Int)) :=
  if line = "" then .ok d
  else
    match pySplit line "=" with
    | [k, v] =>
      if k = "notBefore" then
        match strptimeEpochInt v with
        | .ok t => .ok (assocSet d "start" t)
        | .error e => .error e
      else if k = "notAfter" then
        match strptimeEpochInt v with
        | .ok t => .ok (assocSet d "end" t)
        | .error e => .error e
      else .ok d
    | _ => .error .valueError

/-- The loop of `certificate_dates` over all stdout lines. -/
def datesFold : List (String × Int) → List String → Except PyExc (List (String × Int))
  | d, [] => .ok d
  | d, l :: ls =>
    match datesStep d l with
    | .ok d2 => datesFold d2 ls
    | .error e => .error e

/-- `certificate_dates` on the stdout lines of
`openssl x509 -in FILE -noout -dates`: returns the accumulated mapping,
or `None` when it is empty (`return results or None`). -/
def certificate_dates (lines : List String) : Except PyExc (Option (List (String × Int))) :=
  match datesFold [] lines with
  | .ok d => .ok (if d.isEmpty then none else some d)
  | .error e => .error e

/-- Applying the six distinguished-name patterns of `ssl_regexs`, in the
order of the tuple, to one line, merging each match's captured group
into the mapping (`results.update(match_obj.groupdict())`). -/
def dnLineApply (d : List (String × String)) (l : List Char) : List (String × String) :=
  let d := match capAfterLast "/C=".toList clsCountry l with
    | some r => assocSet d "country" r.asString
    | none => d
  let d := match capAfterLast "/ST=".toList clsStateLoc l with
    | some r => assocSet d "state" r.asString
    | none => d
  let d := match capAfterLast "/L=".toList clsStateLoc l with
    | some r => assocSet d "location" r.asString
    | none => d
  let d := match capAfterLast "/O=".toList clsOrg l with
    | some r => assocSet d "organization" r.asString
    | none => d
  let d := match capAfterLast "/OU=".toList clsUnit l with
    | some r => assocSet d "unit" r.asString
    | none => d
  match capAfterLast "/CN=".toList clsCommonName l with
  | some r => assocSet d "common_name" r.asString
  | none => d

/-- The shared body of `certificate_subject` and `certificate_issuer`
(their code is identical except for the mode flag of the command):
apply every DN pattern to every non-empty line, then
`return results or None`. -/
def dnExtract (lines : List String) : Option (List (String × String)) :=
  let r := lines.foldl (fun d line => if line = "" then d else dnLineApply d line.toList) []
  if r.isEmpty then none else some r

/-- `certificate_subject` on the stdout lines of
`openssl x509 -in FILE -noout -subject`. -/
def certificate_subject (lines : List String) : Option (List (String × String)) :=
  dnExtract lines

/-- `certificate_issuer` on the stdout lines of
`openssl x509 -in FILE -noout -issuer`. -/
def certificate_issuer (lines : List String) : Option (List (String × String)) :=
  dnExtract lines

/-- `certificate_purpose` on the stdout lines of
`openssl x509 -in FILE -noout -purpose`: every non-empty line is split on
the literal `" : "`; a line yielding exactly two parts contributes
`{label: value}`, every other line is skipped; then
`return results or None`. -/
def certificate_purpose (lines : List String) : Option (List (String × String)) :=
  let r := lines.foldl
    (fun d line =>
      if line = "" then d
      else
        match pySplit line " : " with
        | [k, v] => assocSet d k v
        | _ => d)
    []
  if r.isEmpty then none else some r

/-- `certificate_ocsp_uri` on the stdout lines of
`openssl x509 -in FILE -noout -ocsp_uri`: `openssl_out[0]` raises
`IndexError` on an empty line sequence; otherwise the first line is
returned when non-empty and `None` when empty. -/
def certificate_ocsp_uri (lines : List String) : Except PyExc (Option String) :=
  match listIndex lines 0 with
  | .ok l => .ok (if l = "" then none else some l)
  | .error e => .error e

/-- The mapped SAN collection `map(lambda x: x.split(":")[1], dns_matches)`:
each `findall` match is split on `":"` and part 1 taken (`IndexError` if a
match had no colon, which cannot happen since every match starts with
`DNS:`). -/
def dnsNames (line : String) : Except PyExc (List String) :=
  (dnsFindall line.toList).mapM (fun x => listIndex (pySplit x.asString ":") 1)

/-- The SAN check of `certificate_full` for one line: when `findall`
produced any match, `results["names"]` is assigned (overwriting any
previous assignment) the list of the parts after the colon. -/
def fullDnsCheck (d : PyDict) (line : String) : Except PyExc PyDict :=
  if (dnsFindall line.toList).isEmpty then .ok d
  else
    match dnsNames line with
    | .ok names => .ok (assocSet d "names" (.vStrList names))
    | .error e => .error e

/-- One iteration of the inner pattern loop of `certificate_full`: when
the pattern matches, its captured field is merged and `continue` skips
the SAN check for this iteration only; when it does not match, the SAN
check runs. -/
def fullIter (m : String → Option String) (key : String) (d : PyDict) (line : String) :
    Except PyExc PyDict :=
  match m line with
  | some v => .ok (assocSet d key (.vStr v))
  | none => fullDnsCheck d line

/-- `ssl_text_regexs[0]`: `.*Public Key Algorithm: (?P<public_key_algorithm>.*)`. -/
def matchPubKeyAlg (line : String) : Option String :=
  (capToEolAfterLast "Public Key Algorithm: ".toList line.toList).map List.asString

/-- `ssl_text_regexs[1]`: `.*Public-Key: \((?P<length>\d+).*\)`. -/
def matchPkLen (line : String) : Option String :=
  (capPkLen "Public-Key: (".toList line.toList).map List.asString

/-- `ssl_text_regexs[2]`: `.*Signature Algorithm: (?P<signature_algorithm>.*)`. -/
def matchSigAlg (line : String) : Option String :=
  (capToEolAfterLast "Signature Algorithm: ".toList line.toList).map List.asString

/-- The inner pattern loop of `certificate_full` for one stdout line:
the three patterns are tried in the order of `ssl_text_regexs`. -/
def fullLine (d : PyDict) (line : String) : Except PyExc PyDict :=
  match fullIter matchPubKeyAlg "public_key_algorithm" d line with
  | .error e => .error e
  | .ok d1 =>
    match fullIter matchPkLen "length" d1 line with
    | .error e => .error e
    | .ok d2 => fullIter matchSigAlg "signature_algorithm" d2 line

/-- The outer loop of `certificate_full` over all stdout lines. -/
def fullFold : PyDict → List String → Except PyExc PyDict
  | d, [] => .ok d
  | d, l :: ls =>
    match fullLine d l with
    | .ok d2 => fullFold d2 ls
    | .error e => .error e

/-- `certificate_full` on the stdout lines of
`openssl x509 -in FILE -noout -text`; `return results or None`. -/
def certificate_full (lines : List String) : Except PyExc (Option PyDict) :=
  match fullFold [] lines with
  | .ok d => .ok (if d.isEmpty then none else some d)
  | .error e => .error e

/-! ### The analysis orchestrator -/

/-- The external collaborators of one `ssl_analysis` call: whether the
certificate file can be opened for reading (`open` raises `IOError`
otherwise), whether `os.path.getmtime` succeeds (it raises `OSError`
otherwise) and its value, and the command runner
`run(command) = (stdout lines, stderr lines)`, which never raises. -/
structure World where
  canOpen : Bool
  mtimeOk : Bool
  mtime : Int
  run : String → List String × List String

/-- The command of `certificate_dates`. -/
def cmdDates (f : String) : String := "openssl x509 -in " ++ f ++ " -noout -dates"

/-- The command of `certificate_subject`. -/
def cmdSubject (f : String) : String := "openssl x509 -in " ++ f ++ " -noout -subject"

/-- The command of `certificate_issuer`. -/
def cmdIssuer (f : String) : String := "openssl x509 -in " ++ f ++ " -noout -issuer"

/-- The command of `certificate_purpose`. -/
def cmdPurpose (f : String) : String := "openssl x509 -in " ++ f ++ " -noout -purpose"

/-- The command of `certificate_ocsp_uri`. -/
def cmdOcsp (f : String) : String := "openssl x509 -in " ++ f ++ " -noout -ocsp_uri"

/-- The command of `certificate_full`. -/
def cmdText (f : String) : String := "openssl x509 -in " ++ f ++ " -noout -text"

/-- The first five commands, in execution order. -/
def cmds5 (f : String) : List String :=
  [cmdDates f, cmdSubject f, cmdIssuer f, cmdPurpose f, cmdOcsp f]

/-- All six commands, in execution order. -/
def cmds6 (f : String) : List String := cmds5 f ++ [cmdText f]

/-- `int(os.path.getmtime(filename))`. -/
def pyGetMtime (w : World) : Except PyExc Int :=
  if w.mtimeOk then .ok w.mtime else .error .osError

/-- An optional string-valued sub-mapping as stored in the result
dictionary (`None` when the extractor returned `None`). -/
def optStrDictVal : Option (List (String × String)) → PyVal
  | none => .vNone
  | some d => .vStrDict d

/-- An optional integer-valued sub-mapping as stored in the result
dictionary. -/
def optIntDictVal : Option (List (String × Int)) → PyVal
  | none => .vNone
  | some d => .vIntDict d

/-- An optional string as stored in the result dictionary. -/
def optStrVal : Option String → PyVal
  | none => .vNone
  | some s => .vStr s

/-- The result dictionary right after the five field extractors: the keys
`modified`, `dates`, `subject`, `issuer`, `purpose`, `ocsp_uri` assigned
in program order (the subject, issuer and purpose extractors are total,
so they are passed here as plain values). -/
def extractedDict (w : World) (f : String) (m : Int)
    (dates : Option (List (String × Int))) (ocsp : Option String) : PyDict :=
  assocSet (assocSet (assocSet (assocSet (assocSet (assocSet []
    "modified" (.vInt m))
    "dates" (optIntDictVal dates))
    "subject" (optStrDictVal (certificate_subject ((w.run (cmdSubject f)).1))))
    "issuer" (optStrDictVal (certificate_issuer ((w.run (cmdIssuer f)).1))))
    "purpose" (optStrDictVal (certificate_purpose ((w.run (cmdPurpose f)).1))))
    "ocsp_uri" (optStrVal ocsp)

/-- `if additional_info: results.update(additional_info)` — a `None` (or
empty, but the extractor never returns an empty mapping) result of
`certificate_full` is not merged. -/
def withAdditional (d : PyDict) : Option PyDict → PyDict
  | some ad => if ad.isEmpty then d else dictUpdate d ad
  | none => d

/-- `if "length" in results: results["length"] = int(results["length"])`. -/
def coerceLength (d : PyDict) : Except PyExc PyDict :=
  match assocGet d "length" with
  | none => .ok d
  | some v =>
    match pyIntOf v with
    | .ok n => .ok (assocSet d "length" (.vInt n))
    | .error e => .error e

/-- `cn not in names` for the reconciliation step.  The `names` value is
always a list of strings here (the only assignments to it are the SAN
lists); membership of anything in a non-list raises `TypeError`. -/
def pyNotIn : PyVal → PyVal → Except PyExc Bool
  | .vStr s, .vStrList l => .ok (!(l.contains s))
  | _, _ => .error .typeError

/-- `names.append(cn)`: the list value with `cn` appended; appending to a
non-list (never reached: `names` always holds a list) is modelled as
`TypeError`. -/
def pyAppend : PyVal → PyVal → Except PyExc PyVal
  | .vStrList l, .vStr s => .ok (.vStrList (l ++ [s]))
  | _, _ => .error .typeError

/-- `[cn]`: a fresh one-element list.  The common name is always a string
(it comes from a string-valued dictionary), so the non-string case is
never reached. -/
def pySingletonList : PyVal → Except PyExc PyVal
  | .vStr s => .ok (.vStrList [s])
  | _ => .error .other

/-- The SAN / common-name reconciliation of the orchestrator:

    if results.get('names'):
        if results['subject']['common_name'] not in results['names']:
            results['names'].append(results['subject']['common_name'])
    else:
        results['names'] = [results['subject']['common_name']]
-/
def reconcileNames (d : PyDict) : Except PyExc PyDict :=
  if (match assocGet d "names" with | some v => pyTruthy v | none => false) then
    match dictSubscript d "subject" with
    | .error e => .error e
    | .ok subjv =>
      match pyValSubscript subjv "common_name" with
      | .error e => .error e
      | .ok cn =>
        match dictSubscript d "names" with
        | .error e => .error e
        | .ok namesv =>
          match pyNotIn cn namesv with
          | .error e => .error e
          | .ok true =>
            match pyAppend namesv cn with
            | .error e => .error e
            | .ok nv => .ok (assocSet d "names" nv)
          | .ok false => .ok d
  else
    match dictSubscript d "subject" with
    | .error e => .error e
    | .ok subjv =>
      match pyValSubscript subjv "common_name" with
      | .error e => .error e
      | .ok cn =>
        match pySingletonList cn with
        | .error e => .error e
        | .ok nv => .ok (assocSet d "names" nv)

/-- The body of the big `try` block of `ssl_analysis`: the modification
time, the six extractors in program order, the merge of the full-text
result, the `length` coercion and the names reconciliation.  Besides the
`Except` outcome it returns the list of commands given to the command
runner before the block finished or raised (the subject, issuer and
purpose extractors never raise, so their commands are always recorded
together with the dates command that precedes them and the OCSP command
that follows). -/
def sslTry (w : World) (f : String) : Except PyExc PyDict × List String :=
  match pyGetMtime w with
  | .error e => (.error e, [])
  | .ok m =>
    match certificate_dates ((w.run (cmdDates f)).1) with
    | .error e => (.error e, [cmdDates f])
    | .ok dates =>
      match certificate_ocsp_uri ((w.run (cmdOcsp f)).1) with
      | .error e => (.error e, cmds5 f)
      | .ok ocsp =>
        match certificate_full ((w.run (cmdText f)).1) with
        | .error e => (.error e, cmds6 f)
        | .ok add =>
          match coerceLength (withAdditional (extractedDict w f m dates ocsp) add) with
          | .error e => (.error e, cmds6 f)
          | .ok d7 =>
            match reconcileNames d7 with
            | .error e => (.error e, cmds6 f)
            | .ok d8 => (.ok d8, cmds6 f)

/-- The readability pre-check `open(filename, "r"); close()`: raises
`IOError` exactly when the file cannot be opened. -/
def pyOpenCheck (w : World) : Except PyExc Unit :=
  if w.canOpen then .ok () else .error .ioError

/-- `ssl_analysis(filename)`.  The first component is the outcome the
caller sees: `.ok (some results)` for a successful analysis,
`.ok none` for a logged failure (`return None`), and a `.error` only if
an exception escaped both handlers — the first handler catches the
`IOError` of the readability check, the second catches every `Exception`
raised inside the `try` block (the `finally` clause only logs timing).
The second component is the list of commands given to the command
runner. -/
def ssl_analysis (w : World) (f : String) : Except PyExc (Option PyDict) × List String :=
  match pyOpenCheck w with
  | .error .ioError => (.ok none, [])
  | .error e => (.error e, [])
  | .ok () =>
    match sslTry w f with
    | (.ok d, tr) => (.ok (some d), tr)
    | (.error _, tr) => (.ok none, tr)

/-! ### Concrete worlds used by the closed theorems below -/

/-- A test world: readable file, modification time 1234, and a command
runner answering the subject / full-text / OCSP / dates commands for
`cert.pem` with the given line lists and every other command with one
empty line. -/
def mkWorld (subj text ocsp dates : List String) : World :=
  ⟨true, true, 1234, fun c =>
    if c = cmdSubject "cert.pem" then (subj, [])
    else if c = cmdText "cert.pem" then (text, [])
    else if c = cmdOcsp "cert.pem" then (ocsp, [])
    else if c = cmdDates "cert.pem" then (dates, [])
    else ([""], [])⟩

/-- A benign world for exercising totality. -/
def worldC1 : World := mkWorld ["subject= /CN=example.com"] [""] [""] [""]

/-- A world whose OCSP command yields an empty line sequence and whose
other outputs parse cleanly. -/
def worldC4empty : World := mkWorld ["subject= /CN=example.com"] [""] [] [""]

/-- The same world except that the OCSP command yields one line. -/
def worldC4uri : World :=
  mkWorld ["subject= /CN=example.com"] [""] ["http://ocsp.example.com/"] [""]

/-- A world where every extractor sees one empty line, so no subject (and
no common name) is recovered. -/
def worldC5 : World := mkWorld [""] [""] [""] [""]

/-- A world whose certificate file cannot be opened. -/
def worldC6 : World := ⟨false, true, 1234, fun _ => ([""], [])⟩

/-- A world whose full-text dump holds a SAN line with two DNS names. -/
def worldC7 : World :=
  mkWorld ["subject= /CN=example.com"] ["DNS:www.example.com, DNS:example.org"] [""] [""]

/-- The analysis result of `worldC7`. -/
def resultC7 : PyDict :=
  [("modified", .vInt 1234), ("dates", .vNone),
   ("subject", .vStrDict [("common_name", "example.com")]),
   ("issuer", .vNone), ("purpose", .vNone), ("ocsp_uri", .vNone),
   ("names", .vStrList ["www.example.com", "example.org", "example.com"])]

/-- A world with only a subject line. -/
def worldC8 : World := mkWorld ["subject= /CN=example.com"] [""] [""] [""]

/-- The analysis result of `worldC8`. -/
def resultC8 : PyDict :=
  [("modified", .vInt 1234), ("dates", .vNone),
   ("subject", .vStrDict [("common_name", "example.com")]),
   ("issuer", .vNone), ("purpose", .vNone), ("ocsp_uri", .vNone),
   ("names", .vStrList ["example.com"])]

/-- A world whose full-text dump holds a `Public-Key` line. -/
def worldC9 : World :=
  mkWorld ["subject= /CN=example.com"] ["Public-Key: (2048 bit)"] [""] [""]

/-- The analysis result of `worldC9`. -/
def resultC9 : PyDict :=
  [("modified", .vInt 1234), ("dates", .vNone),
   ("subject", .vStrDict [("common_name", "example.com")]),
   ("issuer", .vNone), ("purpose", .vNone), ("ocsp_uri", .vNone),
   ("length", .vInt 2048), ("names", .vStrList ["example.com"])]

/-- A world whose dates command yields a line without any `=`. -/
def worldC10 : World := mkWorld ["subject= /CN=example.com"] [""] [""] ["garbage"]

/-! ### Dictionary lemmas -/

theorem assocGet_assocSet_self {α : Type} (d : List (String × α)) (k : String) (v : α) :
    assocGet (assocSet d k v) k = some v := by
  induction d with
  | nil => simp [assocSet, assocGet]
  | cons p rest ih =>
    obtain ⟨k0, v0⟩ := p
    by_cases h : k = k0 <;> simp [assocSet, assocGet, h, ih]

theorem assocGet_assocSet_ne {α : Type} (d : List (String × α)) {k k2 : String} (v : α)
    (h : k ≠ k2) : assocGet (assocSet d k2 v) k = assocGet d k := by
  induction d with
  | nil => simp [assocSet, assocGet, h]
  | cons p rest ih =>
    obtain ⟨k0, v0⟩ := p
    by_cases h0 : k2 = k0
    · subst h0
      simp [assocSet, assocGet, h]
    · by_cases h1 : k = k0 <;> simp [assocSet, assocGet, h0, h1, ih]

theorem assocSet_assocSet_same {α : Type} (d : List (String × α)) (k : String) (v v2 : α) :
    assocSet (assocSet d k v) k v2 = assocSet d k v2 := by
  induction d with
  | nil => simp [assocSet]
  | cons p rest ih =>
    obtain ⟨k0, v0⟩ := p
    by_cases h : k = k0 <;> simp [assocSet, h, ih]

theorem mem_assocSet {α : Type} {d : List (String × α)} {k : String} {v : α}
    {p : String × α} (h : p ∈ assocSet d k v) : p ∈ d ∨ p.1 = k := by
  induction d with
  | nil =>
    simp [assocSet] at h
    subst h
    exact Or.inr rfl
  | cons q rest ih =>
    obtain ⟨k0, v0⟩ := q
    by_cases h0 : k = k0
    · subst h0
      simp [assocSet] at h
      rcases h with h | h
      · subst h; exact Or.inr rfl
      · exact Or.inl (List.mem_cons_of_mem _ h)
    · simp [assocSet, h0] at h
      rcases h with h | h
      · subst h; exact Or.inl (List.mem_cons_self _ _)
      · rcases ih h with h2 | h2
        · exact Or.inl (List.mem_cons_of_mem _ h2)
        · exact Or.inr h2

theorem assocGet_dictUpdate_notmem {d : PyDict} {ad : PyDict} {k : String}
    (h : ∀ p ∈ ad, p.1 ≠ k) : assocGet (dictUpdate d ad) k = assocGet d k := by
  induction ad generalizing d with
  | nil => simp [dictUpdate]
  | cons p rest ih =>
    have hp : p.1 ≠ k := h p (List.mem_cons_self _ _)
    have hrest : ∀ q ∈ rest, q.1 ≠ k := fun q hq => h q (List.mem_cons_of_mem _ hq)
    show assocGet (dictUpdate (assocSet d p.1 p.2) rest) k = assocGet d k
    rw [ih hrest, assocGet_assocSet_ne _ _ (Ne.symm hp)]

theorem assocGet_isSome_assocSet {α : Type} (d : List (String × α)) (k k2 : String) (v : α)
    (h : (assocGet d k).isSome) : (assocGet (assocSet d k2 v) k).isSome := by
  by_cases he : k = k2
  · subst he; rw [assocGet_assocSet_self]; rfl
  · rw [assocGet_assocSet_ne _ _ he]; exact h

theorem assocGet_isSome_dictUpdate (d ad : PyDict) (k : String)
    (h : (assocGet d k).isSome) : (assocGet (dictUpdate d ad) k).isSome := by
  induction ad generalizing d with
  | nil => simpa [dictUpdate] using h
  | cons p rest ih =>
    show (assocGet (dictUpdate (assocSet d p.1 p.2) rest) k).isSome
    exact ih _ (assocGet_isSome_assocSet _ _ _ _ h)

/-! ### Key-range lemmas for `certificate_full` -/

/-- The keys `certificate_full` can produce. -/
def fullKeys : List String :=
  ["public_key_algorithm", "length", "signature_algorithm", "names"]

theorem mem_fullDnsCheck {d d2 : PyDict} {line : String} {p : String × PyVal}
    (h : fullDnsCheck d line = .ok d2) (hp : p ∈ d2) : p ∈ d ∨ p.1 = "names" := by
  unfold fullDnsCheck at h
  split at h
  · cases h; exact Or.inl hp
  · split at h
    · cases h
      rcases mem_assocSet hp with h2 | h2
      · exact Or.inl h2
      · exact Or.inr h2
    · cases h

theorem mem_fullIter {m : String → Option String} {key : String} {d d2 : PyDict}
    {line : String} {p : String × PyVal}
    (h : fullIter m key d line = .ok d2) (hp : p ∈ d2) :
    p ∈ d ∨ p.1 = key ∨ p.1 = "names" := by
  unfold fullIter at h
  split at h
  · cases h
    rcases mem_assocSet hp with h2 | h2
    · exact Or.inl h2
    · exact Or.inr (Or.inl h2)
  · rcases mem_fullDnsCheck h hp with h2 | h2
    · exact Or.inl h2
    · exact Or.inr (Or.inr h2)

theorem mem_fullLine {d d2 : PyDict} {line : String} {p : String × PyVal}
    (h : fullLine d line = .ok d2) (hp : p ∈ d2) : p ∈ d ∨ p.1 ∈ fullKeys := by
  unfold fullLine at h
  split at h
  · cases h
  · rename_i d1 h1
    split at h
    · cases h
    · rename_i dmid h2
      rcases mem_fullIter h hp with h3 | h3 | h3
      · rcases mem_fullIter h2 h3 with h4 | h4 | h4
        · rcases mem_fullIter h1 h4 with h5 | h5 | h5
          · exact Or.inl h5
          · exact Or.inr (by simp [fullKeys, h5])
          · exact Or.inr (by simp [fullKeys, h5])
        · exact Or.inr (by simp [fullKeys, h4])
        · exact Or.inr (by simp [fullKeys, h4])
      · exact Or.inr (by simp [fullKeys, h3])
      · exact Or.inr (by simp [fullKeys, h3])

theorem mem_fullFold {d d2 : PyDict} {lines : List String} {p : String × PyVal}
    (h : fullFold d lines = .ok d2) (hp : p ∈ d2) : p ∈ d ∨ p.1 ∈ fullKeys := by
  induction lines generalizing d with
  | nil =>
    unfold fullFold at h
    cases h
    exact Or.inl hp
  | cons l ls ih =>
    unfold fullFold at h
    split at h
    · rename_i dmid hl
      rcases ih h with h2 | h2
      · exact mem_fullLine hl h2
      · exact Or.inr h2
    · cases h

theorem certificate_full_keys {lines : List String} {ad : PyDict}
    (h : certificate_full lines = .ok (some ad)) : ∀ p ∈ ad, p.1 ∈ fullKeys := by
  intro p hp
  unfold certificate_full at h
  split at h
  · rename_i d hd
    split at h
    · cases h
    · cases h
      rcases mem_fullFold hd hp with h2 | h2
      · simp at h2
      · exact h2
  · cases h

/-! ### Lemmas about the assembly steps -/

theorem coerceLength_get_ne {d d2 : PyDict} {k : String} (hk : k ≠ "length")
    (h : coerceLength d = .ok d2) : assocGet d2 k = assocGet d k := by
  unfold coerceLength at h
  split at h
  · cases h; rfl
  · split at h
    · cases h
      exact assocGet_assocSet_ne _ _ hk
    · cases h

theorem coerceLength_length_int {d d2 : PyDict} {v : PyVal}
    (h : coerceLength d = .ok d2) (hv : assocGet d2 "length" = some v) :
    ∃ n : Int, v = .vInt n := by
  unfold coerceLength at h
  split at h
  · cases h
    rename_i hnone
    rw [hv] at hnone
    cases hnone
  · split at h
    · cases h
      rw [assocGet_assocSet_self] at hv
      exact ⟨_, (Option.some_injective _ hv).symm⟩
    · cases h

theorem coerceLength_isSome {d d2 : PyDict} {k : String}
    (h : coerceLength d = .ok d2) (hs : (assocGet d k).isSome) :
    (assocGet d2 k).isSome := by
  unfold coerceLength at h
  split at h
  · cases h; exact hs
  · split at h
    · cases h
      exact assocGet_isSome_assocSet _ _ _ _ hs
    · cases h

theorem reconcileNames_get_ne {d d2 : PyDict} {k : String} (hk : k ≠ "names")
    (h : reconcileNames d = .ok d2) : assocGet d2 k = assocGet d k := by
  unfold reconcileNames at h
  split at h <;>
    [skip; skip] <;>
    (repeat' split at h) <;>
    (try cases h) <;>
    first
      | rfl
      | exact assocGet_assocSet_ne _ _ hk

theorem reconcileNames_isSome {d d2 : PyDict} {k : String}
    (h : reconcileNames d = .ok d2) (hs : (assocGet d k).isSome) :
    (assocGet d2 k).isSome := by
  unfold reconcileNames at h
  split at h <;>
    (repeat' split at h) <;>
    (try cases h) <;>
    first
      | exact hs
      | exact assocGet_isSome_assocSet _ _ _ _ hs

/-- Whenever the reconciliation step succeeds and the subject mapping of
its input holds a common name, the resulting `names` value is a non-empty
string list containing that common name. -/
theorem reconcileNames_names_cn {d d2 : PyDict} {sd : List (String × String)} {cn : String}
    (h : reconcileNames d = .ok d2)
    (hsubj : assocGet d "subject" = some (.vStrDict sd))
    (hcn : assocGet sd "common_name" = some cn) :
    ∃ ns : List String, assocGet d2 "names" = some (.vStrList ns) ∧ ns ≠ [] ∧ cn ∈ ns := by
  unfold reconcileNames at h
  split at h
  · rename_i htruthy
    simp only [dictSubscript, hsubj, pyValSubscript, hcn] at h
    cases hnames : assocGet d "names" with
    | none =>
      rw [hnames] at htruthy
      cases htruthy
    | some namesv =>
      rw [hnames] at h htruthy
      cases namesv <;> simp only [pyNotIn] at h <;> try cases h
      rename_i l
      by_cases hmem : cn ∈ l
      · simp only [pyTruthy] at htruthy
        simp [hmem] at h
        cases h
        refine ⟨l, hnames, ?_, hmem⟩
        simpa using htruthy
      · simp [hmem, pyAppend] at h
        rw [← h]
        exact ⟨l ++ [cn], assocGet_assocSet_self _ _ _, by simp, by simp⟩
  · simp only [dictSubscript, hsubj, pyValSubscript, hcn, pySingletonList] at h
    cases h
    exact ⟨[cn], assocGet_assocSet_self _ _ _, by simp, by simp⟩

/-- When the `names` value of the input is a truthy string list already
containing the common name, the reconciliation changes nothing
(no duplicate append). -/
theorem reconcileNames_no_duplicate {d : PyDict} {sd : List (String × String)}
    {cn : String} {l : List String}
    (hsubj : assocGet d "subject" = some (.vStrDict sd))
    (hcn : assocGet sd "common_name" = some cn)
    (hnames : assocGet d "names" = some (.vStrList l)) (hne : l ≠ [])
    (hmem : cn ∈ l) : reconcileNames d = .ok d := by
  unfold reconcileNames
  rw [hnames]
  simp only [pyTruthy]
  rw [if_pos (by simpa using hne)]
  simp only [dictSubscript, hsubj, pyValSubscript, hcn, hnames, pyNotIn]
  simp [hmem]

/-- When the `names` value is a truthy string list not containing the
common name, the reconciliation appends the common name to it. -/
theorem reconcileNames_append {d : PyDict} {sd : List (String × String)}
    {cn : String} {l : List String}
    (hsubj : assocGet d "subject" = some (.vStrDict sd))
    (hcn : assocGet sd "common_name" = some cn)
    (hnames : assocGet d "names" = some (.vStrList l)) (hne : l ≠ [])
    (hmem : cn ∉ l) :
    reconcileNames d = .ok (assocSet d "names" (.vStrList (l ++ [cn]))) := by
  unfold reconcileNames
  rw [hnames]
  simp only [pyTruthy]
  rw [if_pos (by simpa using hne)]
  simp only [dictSubscript, hsubj, pyValSubscript, hcn, hnames, pyNotIn]
  simp [hmem, pyAppend]

/-- When no `names` entry exists at all, the reconciliation creates a
fresh one-element list holding only the common name. -/
theorem reconcileNames_singleton {d : PyDict} {sd : List (String × String)} {cn : String}
    (hsubj : assocGet d "subject" = some (.vStrDict sd))
    (hcn : assocGet sd "common_name" = some cn)
    (hnames : assocGet d "names" = none) :
    reconcileNames d = .ok (assocSet d "names" (.vStrList [cn])) := by
  unfold reconcileNames
  rw [hnames]
  simp only [dictSubscript, hsubj, pyValSubscript, hcn, pySingletonList]
  simp

/-- When the subject entry of the assembled dictionary is `None`, or a
mapping without a `common_name` key, the reconciliation step raises
(`TypeError` resp. `KeyError`). -/
theorem reconcileNames_error {d : PyDict}
    (h : assocGet d "subject" = some .vNone ∨
         ∃ sd, assocGet d "subject" = some (.vStrDict sd) ∧
               assocGet sd "common_name" = none) :
    ∃ e, reconcileNames d = .error e := by
  unfold reconcileNames
  rcases h with h | ⟨sd, h, hcn⟩
  · simp only [dictSubscript, h, pyValSubscript]
    split <;> exact ⟨_, rfl⟩
  · simp only [dictSubscript, h, pyValSubscript, hcn]
    split <;> exact ⟨_, rfl⟩

/-! ### Lemmas about the orchestrator pipeline -/

theorem extractedDict_modified (w : World) (f : String) (m : Int)
    (dates : Option (List (String × Int))) (ocsp : Option String) :
    assocGet (extractedDict w f m dates ocsp) "modified" = some (.vInt m) := by
  unfold extractedDict
  rw [assocGet_assocSet_ne _ _ (by decide), assocGet_assocSet_ne _ _ (by decide),
      assocGet_assocSet_ne _ _ (by decide), assocGet_assocSet_ne _ _ (by decide),
      assocGet_assocSet_ne _ _ (by decide)]
  exact assocGet_assocSet_self _ _ _

theorem extractedDict_subject (w : World) (f : String) (m : Int)
    (dates : Option (List (String × Int))) (ocsp : Option String) :
    assocGet (extractedDict w f m dates ocsp) "subject" =
      some (optStrDictVal (certificate_subject ((w.run (cmdSubject f)).1))) := by
  unfold extractedDict
  rw [assocGet_assocSet_ne _ _ (by decide), assocGet_assocSet_ne _ _ (by decide),
      assocGet_assocSet_ne _ _ (by decide)]
  exact assocGet_assocSet_self _ _ _

theorem extractedDict_issuer (w : World) (f : String) (m : Int)
    (dates : Option (List (String × Int))) (ocsp : Option String) :
    assocGet (extractedDict w f m dates ocsp) "issuer" =
      some (optStrDictVal (certificate_issuer ((w.run (cmdIssuer f)).1))) := by
  unfold extractedDict
  rw [assocGet_assocSet_ne _ _ (by decide), assocGet_assocSet_ne _ _ (by decide)]
  exact assocGet_assocSet_self _ _ _

theorem extractedDict_purpose (w : World) (f : String) (m : Int)
    (dates : Option (List (String × Int))) (ocsp : Option String) :
    assocGet (extractedDict w f m dates ocsp) "purpose" =
      some (optStrDictVal (certificate_purpose ((w.run (cmdPurpose f)).1))) := by
  unfold extractedDict
  rw [assocGet_assocSet_ne _ _ (by decide)]
  exact assocGet_assocSet_self _ _ _

theorem withAdditional_get_stable {d : PyDict} {add : Option PyDict} {lines : List String}
    {k : String} (hadd : certificate_full lines = .ok add) (hk : ¬ k ∈ fullKeys) :
    assocGet (withAdditional d add) k = assocGet d k := by
  cases add with
  | none => rfl
  | some ad =>
    simp only [withAdditional]
    split
    · rfl
    · exact assocGet_dictUpdate_notmem (fun p hp hpk => by
        have hmem := certificate_full_keys hadd p hp
        rw [hpk] at hmem
        exact hk hmem)

theorem withAdditional_isSome {d : PyDict} {add : Option PyDict} {k : String}
    (hs : (assocGet d k).isSome) : (assocGet (withAdditional d add) k).isSome := by
  cases add with
  | none => exact hs
  | some ad =>
    simp only [withAdditional]
    split
    · exact hs
    · exact assocGet_isSome_dictUpdate _ _ _ hs

/-- Inversion of a successful run of the `try` block: every stage
succeeded and the result is the reconciliation of the coerced merge of
the extractor outputs. -/
theorem sslTry_ok_inv {w : World} {f : String} {r : PyDict}
    (h : (sslTry w f).1 = .ok r) :
    ∃ m dates ocsp add d7,
      pyGetMtime w = .ok m ∧
      certificate_dates ((w.run (cmdDates f)).1) = .ok dates ∧
      certificate_ocsp_uri ((w.run (cmdOcsp f)).1) = .ok ocsp ∧
      certificate_full ((w.run (cmdText f)).1) = .ok add ∧
      coerceLength (withAdditional (extractedDict w f m dates ocsp) add) = .ok d7 ∧
      reconcileNames d7 = .ok r := by
  unfold sslTry at h
  split at h
  · simp at h
  · rename_i m hm
    split at h
    · simp at h
    · rename_i dates hdates
      split at h
      · simp at h
      · rename_i ocsp hocsp
        split at h
        · simp at h
        · rename_i add hadd
          split at h
          · simp at h
          · rename_i d7 hcoerce
            split at h
            · simp at h
            · rename_i d8 hrec
              simp only at h
              cases h
              exact ⟨m, dates, ocsp, add, d7, hm, hdates, hocsp, hadd, hcoerce, hrec⟩

/-- A non-absent analysis result is exactly a successful `try` block with
the file readable. -/
theorem ssl_analysis_ok_inv {w : World} {f : String} {r : PyDict}
    (h : (ssl_analysis w f).1 = .ok (some r)) :
    w.canOpen = true ∧ (sslTry w f).1 = .ok r := by
  unfold ssl_analysis at h
  split at h
  · rename_i hopen
    simp at h
  · rename_i e hopen hne
    simp at h
  · rename_i hopen
    have hcan : w.canOpen = true := by
      by_contra hc
      simp [pyOpenCheck, Bool.not_eq_true] at hc
      rw [pyOpenCheck, hc] at hopen
      simp at hopen
    refine ⟨hcan, ?_⟩
    split at h
    · rename_i d tr heq
      simp only at h
      cases h
      rw [heq]
    · rename_i e tr heq
      simp at h

/-- A raised exception inside the `try` block makes the analysis return
`None` (the broad handler catches every exception of the module). -/
theorem analysis_none_of_error {w : World} {f : String} {e : PyExc}
    (he : (sslTry w f).1 = .error e) : (ssl_analysis w f).1 = .ok none := by
  unfold ssl_analysis
  rcases hp : sslTry w f with ⟨res, tr⟩
  rw [hp] at he
  simp only at he
  subst he
  unfold pyOpenCheck
  by_cases hc : w.canOpen <;> simp [hc, hp]

/-- The `subject` entry of a non-absent analysis result is exactly the
(`None`-wrapped) output of the subject extractor: no later stage touches
that key. -/
theorem final_subject {w : World} {f : String} {r : PyDict}
    (h : (ssl_analysis w f).1 = .ok (some r)) :
    assocGet r "subject" =
      some (optStrDictVal (certificate_subject ((w.run (cmdSubject f)).1))) := by
  obtain ⟨_, htry⟩ := ssl_analysis_ok_inv h
  obtain ⟨m, dates, ocsp, add, d7, _, _, _, hadd, hcoerce, hrec⟩ := sslTry_ok_inv htry
  rw [reconcileNames_get_ne (by decide) hrec, coerceLength_get_ne (by decide) hcoerce,
      withAdditional_get_stable hadd (by decide), extractedDict_subject]

/-- The `issuer` entry of a non-absent analysis result is exactly the
output of the issuer extractor. -/
theorem final_issuer {w : World} {f : String} {r : PyDict}
    (h : (ssl_analysis w f).1 = .ok (some r)) :
    assocGet r "issuer" =
      some (optStrDictVal (certificate_issuer ((w.run (cmdIssuer f)).1))) := by
  obtain ⟨_, htry⟩ := ssl_analysis_ok_inv h
  obtain ⟨m, dates, ocsp, add, d7, _, _, _, hadd, hcoerce, hrec⟩ := sslTry_ok_inv htry
  rw [reconcileNames_get_ne (by decide) hrec, coerceLength_get_ne (by decide) hcoerce,
      withAdditional_get_stable hadd (by decide), extractedDict_issuer]

/-- The `purpose` entry of a non-absent analysis result is exactly the
output of the purpose extractor. -/
theorem final_purpose {w : World} {f : String} {r : PyDict}
    (h : (ssl_analysis w f).1 = .ok (some r)) :
    assocGet r "purpose" =
      some (optStrDictVal (certificate_purpose ((w.run (cmdPurpose f)).1))) := by
  obtain ⟨_, htry⟩ := ssl_analysis_ok_inv h
  obtain ⟨m, dates, ocsp, add, d7, _, _, _, hadd, hcoerce, hrec⟩ := sslTry_ok_inv htry
  rw [reconcileNames_get_ne (by decide) hrec, coerceLength_get_ne (by decide) hcoerce,
      withAdditional_get_stable hadd (by decide), extractedDict_purpose]

/-- Every non-empty line without exactly one `=` makes the unpacking
`key, value = line.split("=")` of the dates extractor raise `ValueError`,
whatever has been accumulated so far. -/
theorem datesStep_bad {l : String} (h1 : l ≠ "") (h2 : (pySplit l "=").length ≠ 2)
    (d : List (String × Int)) : datesStep d l = .error .valueError := by
  unfold datesStep
  rw [if_neg h1]
  cases hs : pySplit l "=" with
  | nil => rfl
  | cons a t =>
    cases t with
    | nil => rfl
    | cons b t2 =>
      cases t2 with
      | nil =>
        exfalso
        apply h2
        rw [hs]
        rfl
      | cons c t3 => rfl

/-- A line on which `datesStep` raises regardless of the accumulator makes
the whole loop of the dates extractor raise. -/
theorem datesFold_error {lines : List String} {l : String}
    (hl : l ∈ lines) (hstep : ∀ d, datesStep d l = .error .valueError) :
    ∀ d, ∃ e, datesFold d lines = .error e := by
  induction lines with
  | nil => cases hl
  | cons x xs ih =>
    intro d
    rcases List.mem_cons.mp hl with hx | hmem
    · subst hx
      exact ⟨_, by unfold datesFold; rw [hstep d]⟩
    · cases hx : datesStep d x with
      | ok d2 =>
        obtain ⟨e, he⟩ := ih hmem d2
        exact ⟨e, by unfold datesFold; rw [hx]; exact he⟩
      | error e =>
        exact ⟨e, by unfold datesFold; rw [hx]⟩

/-- A raising loop makes `certificate_dates` raise. -/
theorem certificate_dates_error {lines : List String} {l : String}
    (hl : l ∈ lines) (hstep : ∀ d, datesStep d l = .error .valueError) :
    ∃ e, certificate_dates lines = .error e := by
  obtain ⟨e, he⟩ := datesFold_error hl hstep []
  exact ⟨e, by unfold certificate_dates; rw [he]⟩

/-- A raising dates extractor aborts the whole `try` block. -/
theorem sslTry_error_of_dates {w : World} {f : String}
    (hd : ∃ e, certificate_dates ((w.run (cmdDates f)).1) = .error e) :
    ∃ e, (sslTry w f).1 = .error e := by
  obtain ⟨e, he⟩ := hd
  unfold sslTry
  cases hm : pyGetMtime w with
  | error e2 => exact ⟨e2, rfl⟩
  | ok m => exact ⟨e, by rw [he]⟩

/-- A raising OCSP extractor (with the preceding stages succeeding)
aborts the whole `try` block. -/
theorem sslTry_error_of_ocsp {w : World} {f : String}
    (hoc : ∃ e, certificate_ocsp_uri ((w.run (cmdOcsp f)).1) = .error e) :
    ∃ e, (sslTry w f).1 = .error e := by
  obtain ⟨e, he⟩ := hoc
  unfold sslTry
  cases hm : pyGetMtime w with
  | error e2 => exact ⟨e2, rfl⟩
  | ok m =>
    cases hd : certificate_dates ((w.run (cmdDates f)).1) with
    | error e2 => exact ⟨e2, rfl⟩
    | ok dates => exact ⟨e, by rw [he]⟩

/-- A successful `try` block always carries the `modified` entry assigned
first: every later stage only adds or replaces entries. -/
theorem sslTry_ok_modified {w : World} {f : String} {r : PyDict}
    (h : (sslTry w f).1 = .ok r) : (assocGet r "modified").isSome := by
  obtain ⟨m, dates, ocsp, add, d7, hm, hdates, hocsp, hadd, hcoerce, hrec⟩ := sslTry_ok_inv h
  have h5 : (assocGet (extractedDict w f m dates ocsp) "modified").isSome := by
    rw [extractedDict_modified]
    rfl
  exact reconcileNames_isSome hrec (coerceLength_isSome hcoerce (withAdditional_isSome h5))

/-- `results or None` never produces an empty collection. -/
theorem orNone_ne_nil {α : Type} {r m : List α}
    (h : (if r.isEmpty then none else some r) = some m) : ¬ m = [] := by
  split at h
  · cases h
  · rename_i hne
    cases h
    intro hm
    rw [hm] at hne
    simp at hne

/-- The subject extractor never returns an empty mapping. -/
theorem certificate_subject_ne_empty {lines : List String} {m : List (String × String)}
    (h : certificate_subject lines = some m) : ¬ m = [] := by
  unfold certificate_subject dnExtract at h
  exact orNone_ne_nil h

/-- The issuer extractor never returns an empty mapping. -/
theorem certificate_issuer_ne_empty {lines : List String} {m : List (String × String)}
    (h : certificate_issuer lines = some m) : ¬ m = [] := by
  unfold certificate_issuer dnExtract at h
  exact orNone_ne_nil h

/-- The purpose extractor never returns an empty mapping. -/
theorem certificate_purpose_ne_empty {lines : List String} {m : List (String × String)}
    (h : certificate_purpose lines = some m) : ¬ m = [] := by
  unfold certificate_purpose at h
  exact orNone_ne_nil h

/-- The stored value of an extractor that never returns an empty mapping
is never an empty mapping. -/
theorem optStrDictVal_ne_empty {σ : Option (List (String × String))}
    (hσ : ∀ m, σ = some m → ¬ m = []) : ¬ optStrDictVal σ = .vStrDict [] := by
  intro h
  cases σ with
  | none => cases h
  | some m =>
    simp only [optStrDictVal] at h
    injection h with h2
    exact hσ m rfl h2

/-! ### The claims -/

/-- C1: for every input file path and every behavior of the command-runner
and filesystem collaborators, `ssl_analysis` never raises a failure to
its caller: it always returns either a populated result record (one that
holds at least the `modified` entry) or an absent (`None`) result. -/
theorem ssl_analysis_never_raises (w : World) (f : String) :
    ∃ o, (ssl_analysis w f).1 = .ok o ∧
      ∀ r, o = some r → (assocGet r "modified").isSome := by
  rcases hp : sslTry w f with ⟨res, tr⟩
  cases res with
  | error e =>
    refine ⟨none, analysis_none_of_error (e := e) ?_, fun r h => by cases h⟩
    rw [hp]
  | ok d =>
    unfold ssl_analysis pyOpenCheck
    by_cases hc : w.canOpen
    · refine ⟨some d, by simp [hc, hp], fun r h => ?_⟩
      cases h
      exact sslTry_ok_modified (by rw [hp])
    · exact ⟨none, by simp [hc], fun r h => by cases h⟩

/-- Witness for C1 at a concrete world. -/
theorem ssl_analysis_never_raises_witness :
    ∃ o, (ssl_analysis worldC1 "cert.pem").1 = .ok o ∧
      ∀ r, o = some r → (assocGet r "modified").isSome :=
  ssl_analysis_never_raises worldC1 "cert.pem"

/-- C5: when the subject extractor recovers no common name (the subject
mapping is absent, or lacks the `common_name` key), the reconciliation
step raises, the orchestrator's handler catches it, and `ssl_analysis`
returns an absent result — the whole analysis degrades, not just the
names field. -/
theorem no_common_name_degrades_analysis :
    (∀ d : PyDict,
       (assocGet d "subject" = some .vNone ∨
        ∃ sd, assocGet d "subject" = some (.vStrDict sd) ∧
              assocGet sd "common_name" = none) →
       ∃ e, reconcileNames d = .error e) ∧
    (∀ (w : World) (f : String),
       (certificate_subject ((w.run (cmdSubject f)).1) = none ∨
        ∃ sd, certificate_subject ((w.run (cmdSubject f)).1) = some sd ∧
              assocGet sd "common_name" = none) →
       (ssl_analysis w f).1 = .ok none) := by
  refine ⟨fun d h => reconcileNames_error h, ?_⟩
  intro w f hsubj
  rcases hp : sslTry w f with ⟨res, tr⟩
  cases res with
  | error e => exact analysis_none_of_error (e := e) (by rw [hp])
  | ok r =>
    exfalso
    have htry : (sslTry w f).1 = .ok r := by rw [hp]
    obtain ⟨m, dates, ocsp, add, d7, hm, hdates, hocsp, hadd, hcoerce, hrec⟩ :=
      sslTry_ok_inv htry
    have hsub7 : assocGet d7 "subject" =
        some (optStrDictVal (certificate_subject ((w.run (cmdSubject f)).1))) := by
      rw [coerceLength_get_ne (by decide) hcoerce,
          withAdditional_get_stable hadd (by decide), extractedDict_subject]
    have herr : ∃ e, reconcileNames d7 = .error e := by
      apply reconcileNames_error
      rcases hsubj with h | ⟨sd, h, hcn⟩
      · left
        rw [hsub7, h]
        rfl
      · right
        exact ⟨sd, by rw [hsub7, h]; rfl, hcn⟩
    obtain ⟨e, he⟩ := herr
    rw [he] at hrec
    cases hrec

/-- Witness for C5 at a concrete world where no subject is recovered. -/
theorem no_common_name_degrades_analysis_witness :
    (ssl_analysis worldC5 "cert.pem").1 = .ok none :=
  no_common_name_degrades_analysis.2 worldC5 "cert.pem" (Or.inl rfl)

/-- C6: when the readability pre-check fails, `ssl_analysis` returns an
absent result and performs zero tool invocations via the command runner
(the recorded command list is empty). -/
theorem unreadable_returns_none_no_calls (w : World) (f : String)
    (h : w.canOpen = false) : ssl_analysis w f = (.ok none, []) := by
  unfold ssl_analysis pyOpenCheck
  rw [h]
  rfl

/-- Witness for C6 at a concrete unreadable world. -/
theorem unreadable_returns_none_no_calls_witness :
    worldC6.canOpen = false ∧ ssl_analysis worldC6 "cert.pem" = (.ok none, []) :=
  ⟨rfl, unreadable_returns_none_no_calls worldC6 "cert.pem" rfl⟩

/-- C10: in `certificate_dates` every non-empty output line is unpacked
into exactly two parts around `=` before the key is examined; a non-empty
line whose split on `=` does not yield exactly two parts raises
`ValueError` regardless of the accumulator, the failure escapes
`certificate_dates`, and is caught only at the orchestrator, turning the
entire analysis result absent. -/
theorem dates_line_without_single_eq_aborts :
    (∀ (d : List (String × Int)) (l : String), l ≠ "" →
       (pySplit l "=").length ≠ 2 → datesStep d l = .error .valueError) ∧
    (∀ (w : World) (f : String) (l : String),
       l ∈ (w.run (cmdDates f)).1 → l ≠ "" → (pySplit l "=").length ≠ 2 →
       (∃ e, certificate_dates ((w.run (cmdDates f)).1) = .error e) ∧
       (ssl_analysis w f).1 = .ok none) := by
  refine ⟨fun d l h1 h2 => datesStep_bad h1 h2 d, ?_⟩
  intro w f l hmem h1 h2
  have hd := certificate_dates_error hmem (datesStep_bad h1 h2)
  refine ⟨hd, ?_⟩
  obtain ⟨e, he⟩ := sslTry_error_of_dates hd
  exact analysis_none_of_error he

/-- Witness for C10 at a concrete world whose dates output holds the line
`garbage`. -/
theorem dates_line_without_single_eq_aborts_witness :
    (∃ e, certificate_dates ((worldC10.run (cmdDates "cert.pem")).1) = .error e) ∧
    (ssl_analysis worldC10 "cert.pem").1 = .ok none :=
  dates_line_without_single_eq_aborts.2 worldC10 "cert.pem" "garbage"
    (by decide) (by decide) (by decide)

/-- C2 counterexample: on the line `Public Key Algorithm: DNS:foo` the
first algorithm pattern matches, yet the line still contributes `foo` to
the names list — the `continue` skips the SAN check only for the matching
pattern's own iteration of the inner loop, not for the whole line. -/
theorem full_text_san_check_not_skipped_for_line :
    matchPubKeyAlg "Public Key Algorithm: DNS:foo" = some "DNS:foo" ∧
    certificate_full ["Public Key Algorithm: DNS:foo"] =
      .ok (some [("public_key_algorithm", .vStr "DNS:foo"),
                 ("names", .vStrList ["foo"])]) := by
  exact ⟨rfl, rfl⟩

/-- C2 amended: the mutual exclusion is per pattern iteration, not per
line — the SAN check is skipped for an entire line only when all three
algorithm/key patterns match it; in that case the line merges the three
captures and contributes nothing to the names list. -/
theorem full_text_all_patterns_match_skips_san (d : PyDict) (l : String) (a b c : String)
    (h1 : matchPubKeyAlg l = some a) (h2 : matchPkLen l = some b)
    (h3 : matchSigAlg l = some c) :
    fullLine d l =
      .ok (assocSet (assocSet (assocSet d "public_key_algorithm" (.vStr a))
            "length" (.vStr b)) "signature_algorithm" (.vStr c)) ∧
    assocGet (assocSet (assocSet (assocSet d "public_key_algorithm" (.vStr a))
            "length" (.vStr b)) "signature_algorithm" (.vStr c)) "names" =
      assocGet d "names" := by
  constructor
  · unfold fullLine fullIter
    rw [h1, h2, h3]
  · rw [assocGet_assocSet_ne _ _ (by decide), assocGet_assocSet_ne _ _ (by decide),
        assocGet_assocSet_ne _ _ (by decide)]

/-- Witness for the amended C2 at a line matched by all three patterns. -/
theorem full_text_all_patterns_match_skips_san_witness :
    fullLine [("names", .vStrList ["x"])]
        "Public Key Algorithm: a Public-Key: (12 b) Signature Algorithm: c" =
      .ok (assocSet (assocSet (assocSet [("names", .vStrList ["x"])]
            "public_key_algorithm" (.vStr "a Public-Key: (12 b) Signature Algorithm: c"))
            "length" (.vStr "12")) "signature_algorithm" (.vStr "c")) ∧
    assocGet (assocSet (assocSet (assocSet [("names", .vStrList ["x"])]
            "public_key_algorithm" (.vStr "a Public-Key: (12 b) Signature Algorithm: c"))
            "length" (.vStr "12")) "signature_algorithm" (.vStr "c")) "names" =
      assocGet [("names", PyVal.vStrList ["x"])] "names" :=
  full_text_all_patterns_match_skips_san [("names", .vStrList ["x"])]
    "Public Key Algorithm: a Public-Key: (12 b) Signature Algorithm: c"
    "a Public-Key: (12 b) Signature Algorithm: c" "12" "c" rfl rfl rfl

/-- C3 counterexample: a dump whose DNS tokens sit on two lines yields
only the names of the second line — `results["names"] = map(...)` is an
assignment, so each matching line overwrites the previous list instead of
accumulating. -/
theorem san_names_overwritten_not_accumulated :
    certificate_full ["DNS:a", "DNS:b"] = .ok (some [("names", .vStrList ["b"])]) := by
  exact rfl

/-- C3 amended: SAN names are not accumulated across lines — whenever the
SAN check runs on a line with DNS tokens (no algorithm pattern matched
it), the `names` entry is reassigned to that line's matches alone, so the
final list holds only the matches of the last such line. -/
theorem san_names_last_line_wins (d : PyDict) (l : String) (ns : List String)
    (h1 : matchPubKeyAlg l = none) (h2 : matchPkLen l = none)
    (h3 : matchSigAlg l = none) (hne : (dnsFindall l.toList).isEmpty = false)
    (hns : dnsNames l = .ok ns) :
    fullLine d l = .ok (assocSet d "names" (.vStrList ns)) := by
  unfold fullLine fullIter fullDnsCheck
  rw [h1, h2, h3, hne, hns]
  simp only [Bool.false_eq_true, if_false]
  rw [assocSet_assocSet_same, assocSet_assocSet_same]

/-- Witness for the amended C3: an existing names list is overwritten. -/
theorem san_names_last_line_wins_witness :
    fullLine [("names", .vStrList ["a"])] "DNS:b" =
      .ok (assocSet [("names", .vStrList ["a"])] "names" (.vStrList ["b"])) :=
  san_names_last_line_wins [("names", .vStrList ["a"])] "DNS:b" ["b"] rfl rfl rfl rfl rfl

/-- C4 counterexample: on an empty output sequence `certificate_ocsp_uri`
raises `IndexError` instead of returning nothing, and the whole analysis
aborts: in a world differing only in the OCSP output, the empty output
turns the entire result absent while the non-empty output yields a
populated result. -/
theorem ocsp_empty_output_aborts_analysis :
    certificate_ocsp_uri [] = .error .indexError ∧
    (ssl_analysis worldC4empty "cert.pem").1 = .ok none ∧
    (∃ r, (ssl_analysis worldC4uri "cert.pem").1 = .ok (some r)) := by
  exact ⟨rfl, rfl, ⟨_, rfl⟩⟩

/-- C4 amended: `certificate_ocsp_uri` returns the first output line
verbatim when the output sequence is non-empty and its first line is
non-empty, and nothing when the first line is empty; on an empty output
sequence it raises `IndexError`, which the orchestrator catches, aborting
the entire analysis (absent result) rather than degrading only the
field. -/
theorem ocsp_uri_first_line_or_index_error :
    (∀ (l : String) (ls : List String),
       certificate_ocsp_uri (l :: ls) = .ok (if l = "" then none else some l)) ∧
    certificate_ocsp_uri [] = .error .indexError ∧
    (∀ (w : World) (f : String), (w.run (cmdOcsp f)).1 = [] →
       (ssl_analysis w f).1 = .ok none) := by
  refine ⟨fun l ls => rfl, rfl, ?_⟩
  intro w f hempty
  obtain ⟨e, he⟩ :=
    sslTry_error_of_ocsp ⟨PyExc.indexError, by rw [hempty]; rfl⟩
  exact analysis_none_of_error he

/-- Witness for the amended C4 at the concrete world with empty OCSP
output. -/
theorem ocsp_uri_first_line_or_index_error_witness :
    (ssl_analysis worldC4empty "cert.pem").1 = .ok none :=
  ocsp_uri_first_line_or_index_error.2.2 worldC4empty "cert.pem" rfl

/-- C7: whenever `ssl_analysis` returns a non-absent result whose subject
holds a common name, the `names` list is non-empty and contains that
common name; moreover the reconciliation appends the common name only
when it is not already present (no duplicate append), and creates the
one-element list `[common_name]` when no SAN list was extracted. -/
theorem names_contain_common_name :
    (∀ (w : World) (f : String) (r : PyDict) (sd : List (String × String)) (cn : String),
       (ssl_analysis w f).1 = .ok (some r) →
       assocGet r "subject" = some (.vStrDict sd) →
       assocGet sd "common_name" = some cn →
       ∃ ns : List String,
         assocGet r "names" = some (.vStrList ns) ∧ ns ≠ [] ∧ cn ∈ ns) ∧
    (∀ (d : PyDict) (sd : List (String × String)) (cn : String) (l : List String),
       assocGet d "subject" = some (.vStrDict sd) →
       assocGet sd "common_name" = some cn →
       assocGet d "names" = some (.vStrList l) → l ≠ [] →
       (cn ∈ l → reconcileNames d = .ok d) ∧
       (cn ∉ l →
         reconcileNames d = .ok (assocSet d "names" (.vStrList (l ++ [cn]))))) ∧
    (∀ (d : PyDict) (sd : List (String × String)) (cn : String),
       assocGet d "subject" = some (.vStrDict sd) →
       assocGet sd "common_name" = some cn →
       assocGet d "names" = none →
       reconcileNames d = .ok (assocSet d "names" (.vStrList [cn]))) := by
  refine ⟨?_, ?_, ?_⟩
  · intro w f r sd cn h hsubj hcn
    obtain ⟨_, htry⟩ := ssl_analysis_ok_inv h
    obtain ⟨m, dates, ocsp, add, d7, hm, hdates, hocsp, hadd, hcoerce, hrec⟩ :=
      sslTry_ok_inv htry
    have hsub7 : assocGet d7 "subject" = some (.vStrDict sd) := by
      rw [← reconcileNames_get_ne (by decide) hrec]
      exact hsubj
    exact reconcileNames_names_cn hrec hsub7 hcn
  · intro d sd cn l hsubj hcn hnames hne
    exact ⟨fun hmem => reconcileNames_no_duplicate hsubj hcn hnames hne hmem,
           fun hmem => reconcileNames_append hsubj hcn hnames hne hmem⟩
  · intro d sd cn hsubj hcn hnames
    exact reconcileNames_singleton hsubj hcn hnames

/-- Witness for C7 at a concrete world whose SAN list has two entries and
whose subject common name is appended to them. -/
theorem names_contain_common_name_witness :
    ∃ ns : List String,
      assocGet resultC7 "names" = some (.vStrList ns) ∧ ns ≠ [] ∧ "example.com" ∈ ns :=
  names_contain_common_name.1 worldC7 "cert.pem" resultC7
    [("common_name", "example.com")] "example.com" rfl rfl rfl

/-- C8: the subject, issuer and purpose extractors each return either a
non-empty mapping or nothing, never an empty mapping, so in any
non-absent analysis result the `subject`, `issuer` and `purpose` entries
are never present as empty mappings. -/
theorem sub_mappings_never_empty :
    (∀ (lines : List String) (m : List (String × String)),
       certificate_subject lines = some m → ¬ m = []) ∧
    (∀ (lines : List String) (m : List (String × String)),
       certificate_issuer lines = some m → ¬ m = []) ∧
    (∀ (lines : List String) (m : List (String × String)),
       certificate_purpose lines = some m → ¬ m = []) ∧
    (∀ (w : World) (f : String) (r : PyDict), (ssl_analysis w f).1 = .ok (some r) →
       ¬ assocGet r "subject" = some (.vStrDict []) ∧
       ¬ assocGet r "issuer" = some (.vStrDict []) ∧
       ¬ assocGet r "purpose" = some (.vStrDict [])) := by
  refine ⟨fun lines m h => certificate_subject_ne_empty h,
          fun lines m h => certificate_issuer_ne_empty h,
          fun lines m h => certificate_purpose_ne_empty h, ?_⟩
  intro w f r h
  refine ⟨?_, ?_, ?_⟩
  · rw [final_subject h]
    intro hcontra
    injection hcontra with hv
    exact optStrDictVal_ne_empty (fun m hm => certificate_subject_ne_empty hm) hv
  · rw [final_issuer h]
    intro hcontra
    injection hcontra with hv
    exact optStrDictVal_ne_empty (fun m hm => certificate_issuer_ne_empty hm) hv
  · rw [final_purpose h]
    intro hcontra
    injection hcontra with hv
    exact optStrDictVal_ne_empty (fun m hm => certificate_purpose_ne_empty hm) hv

/-- Witness for C8: the extractor fact at a concrete subject line and the
result-level fact at a concrete world. -/
theorem sub_mappings_never_empty_witness :
    (¬ ([("common_name", "example.com")] : List (String × String)) = []) ∧
    (¬ assocGet resultC8 "subject" = some (.vStrDict []) ∧
     ¬ assocGet resultC8 "issuer" = some (.vStrDict []) ∧
     ¬ assocGet resultC8 "purpose" = some (.vStrDict [])) :=
  ⟨sub_mappings_never_empty.1 ["subject= /CN=example.com"]
      [("common_name", "example.com")] rfl,
   sub_mappings_never_empty.2.2.2 worldC8 "cert.pem" resultC8 rfl⟩

/-- C9: in every non-absent analysis result, a present `length` value is
an integer, never a string — the digit capture of the `Public-Key`
pattern is coerced during assembly; in particular the full-text line
`Public-Key: (2048 bit)` yields the capture `2048` and a final
`length = 2048` as an integer. -/
theorem length_always_integer :
    (∀ (w : World) (f : String) (r : PyDict) (v : PyVal),
       (ssl_analysis w f).1 = .ok (some r) →
       assocGet r "length" = some v → ∃ n : Int, v = .vInt n) ∧
    matchPkLen "Public-Key: (2048 bit)" = some "2048" ∧
    certificate_full ["Public-Key: (2048 bit)"] =
      .ok (some [("length", .vStr "2048")]) ∧
    (∃ r, (ssl_analysis worldC9 "cert.pem").1 = .ok (some r) ∧
          assocGet r "length" = some (.vInt 2048)) := by
  refine ⟨?_, rfl, rfl, ⟨resultC9, rfl, rfl⟩⟩
  intro w f r v h hv
  obtain ⟨_, htry⟩ := ssl_analysis_ok_inv h
  obtain ⟨m, dates, ocsp, add, d7, hm, hdates, hocsp, hadd, hcoerce, hrec⟩ :=
    sslTry_ok_inv htry
  rw [reconcileNames_get_ne (by decide) hrec] at hv
  exact coerceLength_length_int hcoerce hv

/-- Witness for C9 at the concrete world whose full-text dump holds the
`Public-Key: (2048 bit)` line. -/
theorem length_always_integer_witness :
    ∃ n : Int, PyVal.vInt 2048 = .vInt n :=
  length_always_integer.1 worldC9 "cert.pem" resultC9 (.vInt 2048) rfl rfl
